import Mathlib

/-!
Verification of the agent core of a browser chat client (agent turn-loop,
provider adapter, tool executor, conversation persistence).

The JavaScript source is embedded shallowly:

* JavaScript values flowing through the core (provider responses, tool
  calls, tool results, message contents) are modelled by the inductive
  type `JVal` (JSON-style values; JSON numerals are modelled as integers,
  which covers every numeral the core itself produces).
* `undefined` is modelled as `Option.none` at the points where the source
  can observe it (missing object fields, absent function results); `null`
  is the explicit value `JVal.jnull`.
* Exceptions are modelled with `Except String` (the string is the
  message of the thrown `Error`; host-generated `TypeError`s, whose text
  the source never inspects, are modelled by the stand-in message
  "TypeError").
* The network (`fetch`) is a function parameter, so theorems can
  quantify over every possible provider behaviour.
-/

/-- A JavaScript/JSON value as the agent core manipulates it. -/
inductive JVal where
  | jnull : JVal
  | jbool : Bool → JVal
  | jnum : Int → JVal
  | jstr : String → JVal
  | jarr : List JVal → JVal
  | jobj : List (String × JVal) → JVal

namespace JVal

/-- JavaScript truthiness of a value. -/
def truthy : JVal → Bool
  | jnull => false
  | jbool b => b
  | jnum n => n ≠ 0
  | jstr s => s ≠ ""
  | jarr _ => true
  | jobj _ => true

/-- Truthiness of a possibly-`undefined` value. -/
def truthyO : Option JVal → Bool
  | none => false
  | some v => truthy v

/-- Property read `v[k]` on a value known not to be nullish.
Objects look the key up; arrays and strings expose a numeric
"length"; every other read yields `undefined` (`none`). -/
def getF : JVal → String → Option JVal
  | jobj fs, k => fs.lookup k
  | jarr xs, k => if k = ("length") then some (jnum xs.length) else none
  | jstr s, k => if k = ("length") then some (jnum s.length) else none
  | _, _ => none

/-- Property read on a possibly nullish value: reading a property of
`null` or `undefined` throws a TypeError. -/
def getFE : Option JVal → String → Except String (Option JVal)
  | none, _ => .error ("TypeError")
  | some jnull, _ => .error ("TypeError")
  | some v, k => .ok (getF v k)

/-- Index read `v[i]` on a value known not to be nullish. -/
def idx : JVal → Nat → Option JVal
  | jarr xs, i => xs.get? i
  | jstr s, i => (s.data.get? i).map (fun c => jstr (String.singleton c))
  | _, _ => none

end JVal

open JVal

/-- Hexadecimal digit for control-character escapes. -/
def hexDigit (n : Nat) : Char :=
  if n < 10 then Char.ofNat (48 + n) else Char.ofNat (87 + n)

/-- How `JSON.stringify` escapes one character of a string. -/
def escChar (c : Char) : String :=
  if c = '"' then "\\\""
  else if c = '\\' then "\\\\"
  else if c = '\n' then "\\n"
  else if c = '\t' then "\\t"
  else if c = '\r' then "\\r"
  else if c = '\x08' then "\\b"
  else if c = '\x0c' then "\\f"
  else if c.toNat < 32 then
    "\\u00" ++ String.singleton (hexDigit (c.toNat / 16)) ++ String.singleton (hexDigit (c.toNat % 16))
  else String.singleton c

/-- A JSON string literal: quotes plus escaping, as `JSON.stringify` emits. -/
def jsonQuote (s : String) : String :=
  "\"" ++ String.join (s.data.map escChar) ++ "\""

mutual

/-- `JSON.stringify` on the modelled values (keys in insertion order). -/
def stringify : JVal → String
  | .jnull => "null"
  | .jbool true => "true"
  | .jbool false => "false"
  | .jnum n => toString n
  | .jstr s => jsonQuote s
  | .jarr xs => "[" ++ String.intercalate ("," ) (stringifyList xs) ++ "]"
  | .jobj fs => "\x7b" ++ String.intercalate ("," ) (stringifyFields fs) ++ "\x7d"

def stringifyList : List JVal → List String
  | [] => []
  | v :: vs => stringify v :: stringifyList vs

def stringifyFields : List (String × JVal) → List String
  | [] => []
  | (k, v) :: fs => (jsonQuote k ++ ":" ++ stringify v) :: stringifyFields fs

end

mutual

/-- JavaScript `String(v)` conversion, as used by template literals. -/
def jsTemplate : JVal → String
  | .jnull => "null"
  | .jbool true => "true"
  | .jbool false => "false"
  | .jnum n => toString n
  | .jstr s => s
  | .jarr xs => String.intercalate ("," ) (jsJoinList xs)
  | .jobj _ => "[object Object]"

/-- Elements under `Array.prototype.join`: `null`/`undefined` become
the empty string, everything else converts with `String(v)`. -/
def jsJoinList : List JVal → List String
  | [] => []
  | .jnull :: vs => "" :: jsJoinList vs
  | v :: vs => jsTemplate v :: jsJoinList vs

end

/-- Template conversion of a possibly-`undefined` value. -/
def jsTemplateO : Option JVal → String
  | none => "undefined"
  | some v => jsTemplate v

/-- One element of a `join`, where the element may be `undefined`. -/
def jsJoinElemO : Option JVal → String
  | none => ""
  | some .jnull => ""
  | some v => jsTemplate v

/-! ## JSON.parse

A recursive-descent parser for JSON, modelling the platform `JSON.parse`
used by the tool executor. Numerals are integer-valued (the model of
`JVal`); a `\u` escape is decoded from its four hex digits. The parser
is fuel-indexed to make it structurally total. -/

/-- Skip JSON whitespace. -/
def skipWs : List Char → List Char
  | c :: cs => if c = ' ' ∨ c = '\t' ∨ c = '\n' ∨ c = '\r' then skipWs cs else c :: cs
  | [] => []

/-- Value of a hexadecimal digit, if any. -/
def hexVal (c : Char) : Option Nat :=
  if '0' ≤ c ∧ c ≤ '9' then some (c.toNat - 48)
  else if 'a' ≤ c ∧ c ≤ 'f' then some (c.toNat - 87)
  else if 'A' ≤ c ∧ c ≤ 'F' then some (c.toNat - 55)
  else none

/-- Body of a JSON string literal (after the opening quote), returning the
decoded string and the remaining input. Unescaped control characters and
malformed escapes are rejected, as by `JSON.parse`. -/
def parseStringBody : Nat → List Char → List Char → Option (String × List Char)
  | 0, _, _ => none
  | _ + 1, [], _ => none
  | f + 1, c :: cs, acc =>
    if c = '"' then some (String.mk acc.reverse, cs)
    else if c = '\\' then
      match cs with
      | [] => none
      | e :: cs2 =>
        if e = '"' then parseStringBody f cs2 ('"' :: acc)
        else if e = '\\' then parseStringBody f cs2 ('\\' :: acc)
        else if e = '/' then parseStringBody f cs2 ('/' :: acc)
        else if e = 'n' then parseStringBody f cs2 ('\n' :: acc)
        else if e = 't' then parseStringBody f cs2 ('\t' :: acc)
        else if e = 'r' then parseStringBody f cs2 ('\r' :: acc)
        else if e = 'b' then parseStringBody f cs2 ('\x08' :: acc)
        else if e = 'f' then parseStringBody f cs2 ('\x0c' :: acc)
        else if e = 'u' then
          match cs2 with
          | h1 :: h2 :: h3 :: h4 :: cs3 =>
            match hexVal h1, hexVal h2, hexVal h3, hexVal h4 with
            | some a, some b, some c3, some d =>
              parseStringBody f cs3 (Char.ofNat (((a * 16 + b) * 16 + c3) * 16 + d) :: acc)
            | _, _, _, _ => none
          | _ => none
        else none
    else if c.toNat < 32 then none
    else parseStringBody f cs (c :: acc)

/-- Digits of a JSON numeral (integer part). -/
def parseDigits : List Char → Nat → Nat × List Char
  | c :: cs, acc =>
    if c.isDigit then parseDigits cs (acc * 10 + (c.toNat - 48)) else (acc, c :: cs)
  | [], acc => (acc, [])

/-- A JSON numeral (the integer-valued ones of the model; a leading zero
may not be followed by further digits, per the JSON grammar). -/
def parseNumber (cs : List Char) : Option (Int × List Char) :=
  match cs with
  | '-' :: rest =>
    match parseNumberNat rest with
    | some (n, rest2) => some (-(n : Int), rest2)
    | none => none
  | _ =>
    match parseNumberNat cs with
    | some (n, rest2) => some ((n : Int), rest2)
    | none => none
where
  parseNumberNat (cs : List Char) : Option (Nat × List Char) :=
    match cs with
    | '0' :: rest =>
      match rest with
      | d :: _ => if d.isDigit then none else some (0, rest)
      | [] => some (0, [])
    | c :: _ =>
      if c.isDigit then some (parseDigits cs 0) else none
    | [] => none

mutual

/-- One JSON value (leading whitespace allowed), with the remaining input. -/
def parseJVal : Nat → List Char → Option (JVal × List Char)
  | 0, _ => none
  | f + 1, cs =>
    match skipWs cs with
    | [] => none
    | c :: rest =>
      if c = '"' then
        match parseStringBody (rest.length + 1) rest [] with
        | some (s, rest2) => some (.jstr s, rest2)
        | none => none
      else if c = 't' then
        match rest with
        | 'r' :: 'u' :: 'e' :: rest2 => some (.jbool true, rest2)
        | _ => none
      else if c = 'f' then
        match rest with
        | 'a' :: 'l' :: 's' :: 'e' :: rest2 => some (.jbool false, rest2)
        | _ => none
      else if c = 'n' then
        match rest with
        | 'u' :: 'l' :: 'l' :: rest2 => some (.jnull, rest2)
        | _ => none
      else if c = '[' then
        match skipWs rest with
        | ']' :: rest2 => some (.jarr [], rest2)
        | _ =>
          match parseArrElems f rest with
          | some (vs, rest2) => some (.jarr vs, rest2)
          | none => none
      else if c = Char.ofNat 123 then
        match skipWs rest with
        | c2 :: rest2 =>
          if c2 = Char.ofNat 125 then some (.jobj [], rest2)
          else
            match parseObjFields f (c2 :: rest2) with
            | some (fs, rest3) => some (.jobj fs, rest3)
            | none => none
        | [] => none
      else
        match parseNumber (c :: rest) with
        | some (n, rest2) => some (.jnum n, rest2)
        | none => none

/-- Comma-separated array elements up to the closing bracket. -/
def parseArrElems : Nat → List Char → Option (List JVal × List Char)
  | 0, _ => none
  | f + 1, cs =>
    match parseJVal f cs with
    | none => none
    | some (v, rest) =>
      match skipWs rest with
      | ',' :: rest2 =>
        match parseArrElems f rest2 with
        | some (vs, rest3) => some (v :: vs, rest3)
        | none => none
      | ']' :: rest2 => some ([v], rest2)
      | _ => none

/-- Comma-separated object members up to the closing brace. -/
def parseObjFields : Nat → List Char → Option (List (String × JVal) × List Char)
  | 0, _ => none
  | f + 1, cs =>
    match skipWs cs with
    | '"' :: rest =>
      match parseStringBody (rest.length + 1) rest [] with
      | none => none
      | some (k, rest2) =>
        match skipWs rest2 with
        | ':' :: rest3 =>
          match parseJVal f rest3 with
          | none => none
          | some (v, rest4) =>
            match skipWs rest4 with
            | ',' :: rest5 =>
              match parseObjFields f rest5 with
              | some (fs, rest6) => some ((k, v) :: fs, rest6)
              | none => none
            | c2 :: rest5 =>
              if c2 = Char.ofNat 125 then some ([(k, v)], rest5) else none
            | [] => none
        | _ => none
    | _ => none

end

/-- `JSON.parse`: `none` is a thrown `SyntaxError`. Trailing content
other than whitespace is rejected. -/
def jsonParse (s : String) : Option JVal :=
  match parseJVal (s.length * 2 + 8) s.data with
  | some (v, rest) => if skipWs rest = [] then some v else none
  | none => none

/-! ## Data model

A conversation message as the source pushes it: `addMessage` pushes
records with `id`/`role`/`content`/`timestamp`; the turn-loop pushes a
placeholder record carrying `tool_calls` and tool-result records
carrying `tool_call_id`/`name`. Fields a given push leaves out are
`none` (absent/undefined). -/

structure Message where
  id : Option String := none
  role : String := ""
  content : Option JVal := none
  timestamp : Option Nat := none
  tool_call_id : Option JVal := none
  name : Option JVal := none
  tool_calls : Option JVal := none

/-- An outbound chat message as built for the provider payload. -/
structure ApiMsg where
  role : String
  content : Option String

/-- The serialized content of a message for the outbound payload:
`typeof m.content === "string" ? m.content : JSON.stringify(m.content)`
(`JSON.stringify(undefined)` is `undefined`, i.e. `none`). -/
def serializeMsgContent : Option JVal → Option String
  | some (.jstr s) => some s
  | some v => some (stringify v)
  | none => none

/-- Truthiness of the serialized content (a string is falsy only when empty). -/
def truthyStrO : Option String → Bool
  | some c => c ≠ ""
  | none => false

/-- Outbound message list built by `callLLM`: each `tool`-role message is
relabelled `system`, every other role passes through, then messages with
falsy content are filtered out (`.map(...).filter((m) => !!m.content)`). -/
def buildMessagesForApi (ms : List Message) : List ApiMsg :=
  (ms.map (fun m =>
    if m.role = ("tool") then ApiMsg.mk ("system") (serializeMsgContent m.content)
    else ApiMsg.mk m.role (serializeMsgContent m.content))).filter
    (fun m => truthyStrO m.content)

/-- The `settings.llm` group consumed by `callLLM`. Absence of a string
field (`undefined`) is modelled by the empty string, which is equally
falsy; `maxTokens` and `temperature` are opaque pass-through values. -/
structure LlmSettings where
  provider : String
  apiKey : String
  model : String
  maxTokens : JVal
  temperature : JVal

/-- The request `callLLM` hands to `fetch` (method is always POST). -/
structure HttpRequest where
  url : String
  headers : List (String × String)
  body : JVal

/-- What the transport does with a request: a parsed 2xx JSON body, a
non-2xx status (with its own parsed JSON body, when parseable), or a
thrown network error. -/
inductive FetchResp where
  | ok (data : JVal)
  | httpErr (status : Nat) (statusText : String) (body : Option JVal)
  | netErr (msg : String)

/-- The fixed demo payload returned when no API key is configured. -/
def demoPayload : JVal :=
  .jobj [("choices", .jarr [.jobj [("message", .jobj
    [("content", .jstr ("Demo response: provide an API key in settings to use real models."))])]])]

/-- Response handling after `fetch`: non-2xx statuses raise an error that
embeds the status and the providers own error text when parseable;
transport failures are rethrown with `err.message || "Network error"`. -/
def doFetchResult : FetchResp → Except String JVal
  | .ok data => .ok data
  | .httpErr status statusText body? =>
    let errText : String :=
      match body? with
      | none => toString status ++ " " ++ statusText
      | some .jnull => toString status ++ " " ++ statusText
      | some bj =>
        match getF bj ("error") with
        | none => stringify bj
        | some .jnull => stringify bj
        | some ev =>
          match getF ev ("message") with
          | some mv => if truthy mv then jsTemplate mv else stringify bj
          | none => stringify bj
    .error ("Model not supported for your API key — change model in settings. (Status: "
      ++ toString status ++ ", Details: " ++ errText ++ ")")
  | .netErr m => .error (if m = "" then ("Network error") else m)

/-- Outbound messages as the JSON array sent in request bodies. After the
truthiness filter every content is a present, non-empty string. -/
def msgsJ (msgs : List ApiMsg) : JVal :=
  .jarr (msgs.map (fun m =>
    .jobj [("role", .jstr m.role), ("content", .jstr (m.content.getD ""))]))

/-- `callLLM` (identical in `src/services/llm.js` and the app class):
builds the outbound message list, falls back to the demo payload when no
API key is present, shapes the provider-specific request, and performs
the POST through the `fetch` parameter. -/
def callLLM (fetch : HttpRequest → FetchResp) (st : LlmSettings) (ms : List Message) :
    Except String JVal :=
  let messagesForApi := buildMessagesForApi ms
  if st.provider = "" then .error ("No LLM provider configured.")
  else if st.apiKey = "" then .ok demoPayload
  else if st.provider = ("openai") then
    doFetchResult (fetch (HttpRequest.mk ("https://api.openai.com/v1/chat/completions")
      [("Content-Type", "application/json"), ("Authorization", "Bearer " ++ st.apiKey)]
      (.jobj [("model", .jstr st.model), ("messages", msgsJ messagesForApi),
              ("max_tokens", st.maxTokens), ("temperature", st.temperature)])))
  else if st.provider = ("google") then
    doFetchResult (fetch (HttpRequest.mk
      ("https://generativelanguage.googleapis.com/v1beta/models/" ++ st.model
        ++ ":generateContent?key=" ++ st.apiKey)
      [("Content-Type", "application/json")]
      (.jobj [("messages", .jarr (messagesForApi.map (fun m =>
                .jobj [("role", .jstr (if m.role = ("assistant") then ("model") else ("user"))),
                       ("content", .jstr (m.content.getD ""))]))),
              ("temperature", st.temperature), ("maxOutputTokens", st.maxTokens)])))
  else if st.provider = ("aipipe") then
    doFetchResult (fetch (HttpRequest.mk ("https://aipipe.org/openrouter/v1/chat/completions")
      [("Content-Type", "application/json"), ("Authorization", "Bearer " ++ st.apiKey)]
      (.jobj [("model", .jstr (if st.model = "" then ("openai/gpt-4o-mini") else st.model)),
              ("messages", msgsJ messagesForApi),
              ("max_tokens", st.maxTokens), ("temperature", st.temperature)])))
  else .error ("Unsupported provider: " ++ st.provider)

/-! ## parseAPIResponse -/

/-- Is `v.length > 0`, evaluated only after `v` tested truthy. -/
def truthyLenGT0 : Option JVal → Bool
  | some v => truthy v && (match getF v ("length") with | some (.jnum n) => 0 < n | _ => false)
  | none => false

/-- Is `v.length` truthy, evaluated only after `v` tested truthy. -/
def truthyLen : Option JVal → Bool
  | some v => truthy v && truthyO (getF v ("length"))
  | none => false

/-- Index read on a possibly nullish value (throws on `null`/`undefined`). -/
def idxE : Option JVal → Nat → Except String (Option JVal)
  | none, _ => .error ("TypeError")
  | some .jnull, _ => .error ("TypeError")
  | some v, i => .ok (idx v i)

/-- An object literal with one property whose value may be `undefined`
(an `undefined`-valued property is modelled as absent, which is
indistinguishable to every read the core performs). -/
def mkObj1 (k : String) : Option JVal → JVal
  | some v => .jobj [(k, v)]
  | none => .jobj []

/-- The body of `parseAPIResponse`, with host `TypeError`s as errors. -/
def parseCore (data : JVal) (provider : String) : Except String JVal :=
  if provider = ("openai") ∨ provider = ("aipipe") then do
    let choices? ← getFE (some data) ("choices")
    if truthyLenGT0 choices? then do
      let c0? := match choices? with | some v => idx v 0 | none => none
      let msg? ← getFE c0? ("message")
      if truthyO msg? then
        pure (msg?.getD .jnull)
      else do
        let text? ← getFE c0? ("text")
        pure (.jobj [("content", if truthyO text? then text?.getD .jnull else .jstr "")])
    else do
      let cands? ← getFE (some data) ("candidates")
      if truthyLenGT0 cands? then do
        let c0? := match cands? with | some v => idx v 0 | none => none
        let content? ← getFE c0? ("content")
        let parts1 : Option JVal :=
          match content? with
          | none => none
          | some .jnull => none
          | some cv => getF cv ("parts")
        let parts : JVal :=
          if truthyO parts1 then parts1.getD .jnull
          else if truthyO content? then content?.getD .jnull
          else .jarr []
        let text ← match parts with
          | .jarr xs => do
            let mapped ← xs.mapM (fun p => do
              let t? ← getFE (some p) ("text")
              pure (if truthyO t? then t?.getD .jnull else p))
            pure (JVal.jstr (String.join (mapped.map (fun el => jsJoinElemO (some el)))))
          | other => pure other
        pure (.jobj [("content", text)])
      else
        pure (.jobj [("content", .jstr (stringify data))])
  else if provider = ("google") then do
    let cands? ← getFE (some data) ("candidates")
    if truthyLen cands? then do
      let c0? := match cands? with | some v => idx v 0 | none => none
      let content? ← getFE c0? ("content")
      let parts? ← getFE content? ("parts")
      let p0? ← idxE parts? 0
      let text? ← getFE p0? ("text")
      pure (mkObj1 ("content") text?)
    else
      pure (.jobj [("content", .jstr (stringify data))])
  else
    pure (.jobj [("content", .jstr ("Response format not recognized."))])

/-- `parseAPIResponse`: the `try`/`catch` converts any exception raised
during extraction into the fixed parse-error message. -/
def parseAPIResponse (data : JVal) (provider : String) : Except String JVal :=
  match parseCore data provider with
  | .ok v => .ok v
  | .error _ => .error ("Could not parse the API response.")

/-! ## Conversation state and addMessage

One conversation is modelled (the loop and the executor both write to
the current conversation, which `sendMessage` makes the one being
processed). `clock` models `Date.now()`: strictly monotone, one tick per
read, which only strengthens the real clock (the claims never depend on
timestamp values). -/

structure AgentState where
  messages : List Message := []
  title : String := "New Conversation"
  preview : String := "..."
  updatedAt : Nat := 0
  apiCalls : Nat := 0
  clock : Nat := 0

/-- `addMessage`: skips `null`/`undefined` content, pushes an
id/role/content/timestamp record, and for non-`system` string content
also refreshes preview, title and `updatedAt`. Its internal
`try`/`catch` means it never throws. -/
def addMessage (role : String) (content : Option JVal) (s : AgentState) : AgentState :=
  match content with
  | none => s
  | some .jnull => s
  | some c =>
    let msg : Message := { id := some ("msg_" ++ toString s.clock), role := role,
                           content := some c, timestamp := some s.clock }
    let s1 : AgentState := { s with messages := s.messages ++ [msg], clock := s.clock + 1 }
    match c with
    | .jstr str =>
      if role ≠ ("system") then
        { s1 with preview := str.take 100,
                  title := if s1.title = "" ∨ s1.title = ("New Conversation")
                           then (if str.take 30 = "" then ("Conversation") else str.take 30)
                           else s1.title,
                  updatedAt := s1.clock, clock := s1.clock + 1 }
      else s1
    | _ => s1

/-! ## Tool executor -/

/-- Argument extraction in `executeTool`: reads the top-level
`toolCall.arguments`; a string is JSON-parsed with a catch falling back
to the empty object; a falsy or absent field leaves the empty object. -/
def executeToolArgs (tc : JVal) : JVal :=
  match getF tc ("arguments") with
  | some a =>
    if truthy a then
      match a with
      | .jstr str => (jsonParse str).getD (.jobj [])
      | v => v
    else .jobj []
  | none => .jobj []

/-- `toolCall.function || \x7b\x7d`. -/
def toolFuncOf (tc : JVal) : JVal :=
  match getF tc ("function") with
  | some f => if truthy f then f else .jobj []
  | none => .jobj []

/-- `func.name || func?.name || "unknown"` (the middle term repeats the
first and can never fire). -/
def toolNameOf (tc : JVal) : JVal :=
  match getF (toolFuncOf tc) ("name") with
  | some n => if truthy n then n else .jstr ("unknown")
  | none => .jstr ("unknown")

/-- Simulated `web_search` handler; destructuring its parameter object
throws on `null` arguments. -/
def executeWebSearch : JVal → Except String JVal
  | .jnull => .error ("TypeError")
  | args => .ok (.jobj
      [("status", .jstr ("Simulated search for: " ++ jsTemplateO (getF args ("query")))),
       ("items", .jarr [])])

/-- Simulated `execute_code` handler. -/
def executeCode : JVal → Except String JVal
  | .jnull => .error ("TypeError")
  | args => .ok (.jobj
      [("output", .jstr ("Simulated execution of: " ++ jsTemplateO (getF args ("code"))))])

/-- Simulated `process_file` handler. -/
def processFile : JVal → Except String JVal
  | .jnull => .error ("TypeError")
  | args => .ok (.jobj
      [("result", .jstr ("Simulated " ++ jsTemplateO (getF args ("operation"))
        ++ " on file " ++ jsTemplateO (getF args ("fileId"))))])

/-- Simulated `create_visualization` handler. -/
def createVisualization : JVal → Except String JVal
  | .jnull => .error ("TypeError")
  | args => .ok (.jobj
      [("chartUrl", .jstr ("Simulated " ++ jsTemplateO (getF args ("type"))
        ++ " chart titled \"" ++ jsTemplateO (getF args ("title")) ++ "\""))])

/-- The `switch (name)` of `executeTool`: `case` labels compare with
strict equality, so only a primitive string name can match one of the
four registered tools; everything else falls to the default branch,
which returns the structured unknown-tool value. -/
def dispatchTool (name args : JVal) : Except String JVal :=
  match name with
  | .jstr s =>
    if s = ("web_search") then executeWebSearch args
    else if s = ("execute_code") then executeCode args
    else if s = ("process_file") then processFile args
    else if s = ("create_visualization") then createVisualization args
    else .ok (.jobj [("error", .jstr ("Unknown tool: " ++ s))])
  | other => .ok (.jobj [("error", .jstr ("Unknown tool: " ++ jsTemplate other))])

/-- `executeTool`: resolves the name from `toolCall.function`, parses the
top-level arguments leniently, logs an "Executing tool" system message to
the current conversation, and dispatches against the closed registry. A
`null` tool call throws (reading `.function` of `null`). -/
def executeTool (tc : JVal) (s : AgentState) : AgentState × Except String JVal :=
  match tc with
  | .jnull => (s, .error ("TypeError"))
  | _ =>
    let name := toolNameOf tc
    let args := executeToolArgs tc
    let s1 := addMessage ("system") (some (.jstr ("Executing tool: " ++ jsTemplate name))) s
    (s1, dispatchTool name args)

/-! ## Agent turn-loop -/

/-- `tc.function.name` for each requested call (throws on a nullish
call or a nullish `function`), as evaluated for the "Using tools"
banner. -/
def toolCallNames : List JVal → Except String (List (Option JVal))
  | [] => .ok []
  | tc :: tcs => do
    let f? ← getFE (some tc) ("function")
    let n? ← getFE f? ("name")
    let rest ← toolCallNames tcs
    pure (n? :: rest)

/-- `Promise.all` over already-settled promises: the first rejection (in
request order) wins, otherwise all results are collected in order. -/
def collectResults : List (Except String JVal) → Except String (List JVal)
  | [] => .ok []
  | .error e :: _ => .error e
  | .ok v :: rs =>
    match collectResults rs with
    | .ok vs => .ok (v :: vs)
    | .error e => .error e

/-- The synchronous fan-out of `tool_calls.map((tc) => executeTool(tc))`:
every call runs (and logs its system message) in request order, each
producing a settled result. -/
def runToolExecs (tcs : List JVal) (s : AgentState) : AgentState × List (Except String JVal) :=
  match tcs with
  | [] => (s, [])
  | tc :: rest =>
    let (s1, r) := executeTool tc s
    let (s2, rs) := runToolExecs rest s1
    (s2, r :: rs)

/-- The `toolResults.forEach` loop: per result, push the `tool` record
(tagged with the originating call id and function name) and then the
display copy via `addMessage`. The function name re-read here equals the
one computed for the banner, the data being immutable in between. -/
def pushToolResults : List ((JVal × Option JVal) × JVal) → AgentState → AgentState
  | [], s => s
  | ((tc, nm), v) :: rest, s =>
    let s1 : AgentState := { s with messages := s.messages ++
      [{ role := ("tool"), tool_call_id := getF tc ("id"), name := nm,
         content := some (.jstr (stringify v)) }] }
    let s2 := addMessage ("tool") (some (.jstr (stringify v))) s1
    pushToolResults rest s2

/-- The two appends that precede tool execution: the "Using tools"
banner via `addMessage` (function names joined with a comma, `undefined`
rendering empty under `join`), then the raw push of the placeholder
`assistant` message (`content: null`, carrying the raw `tool_calls`). -/
def toolPhasePrefix (tcsVal : JVal) (names : List (Option JVal)) (s : AgentState) :
    AgentState :=
  let s1 := addMessage ("assistant")
    (some (.jstr ("Using tools: " ++ String.intercalate (", ") (names.map jsJoinElemO)))) s
  { s1 with messages := s1.messages ++
      [{ role := ("assistant"), content := some .jnull, tool_calls := some tcsVal }] }

/-- The tool-call branch of an iteration: banner message, placeholder
`assistant` push, concurrent execution, then result messages. The second
component is the message of the exception that aborts the branch, if
one is thrown. -/
def runToolPhase (tcsVal : JVal) (s : AgentState) : AgentState × Option String :=
  match tcsVal with
  | .jarr tcs =>
    match toolCallNames tcs with
    | .error e => (s, some e)
    | .ok names =>
      let s2 := toolPhasePrefix tcsVal names s
      let (s3, results) := runToolExecs tcs s2
      match collectResults results with
      | .error e => (s3, some e)
      | .ok vals => (pushToolResults ((tcs.zip names).zip vals) s3, none)
  | _ => (s, some ("TypeError"))

/-- Outcome of one loop iteration: loop again after tools ran, stop on a
tool-free response, or an exception caught by the iteration `catch`. -/
inductive IterOut where
  | cont
  | stop
  | err (e : String)

/-- One iteration of the `while` body of `agentLoop`: provider call,
counter bump, parse, optional assistant content append, then the
tool-call branch or termination. -/
def iter (fetch : HttpRequest → FetchResp) (st : LlmSettings) (s : AgentState) :
    AgentState × IterOut :=
  match callLLM fetch st s.messages with
  | .error e => (s, .err e)
  | .ok responseData =>
    let s1 : AgentState := { s with apiCalls := s.apiCalls + 1 }
    match parseAPIResponse responseData st.provider with
    | .error e => (s1, .err e)
    | .ok response =>
      let s2 := if truthy response && truthyO (getF response ("content"))
                then addMessage ("assistant") (getF response ("content")) s1
                else s1
      let tcs? : Option JVal := if truthy response then getF response ("tool_calls") else none
      if truthyLenGT0 tcs? then
        match tcs? with
        | some tv =>
          match runToolPhase tv s2 with
          | (s3, none) => (s3, .cont)
          | (s3, some e) => (s3, .err e)
        | none => (s2, .stop)
      else (s2, .stop)

/-- The `while (maxTurns-- > 0)` loop, structurally recursive on the
remaining budget. The second component counts `callLLM` invocations
performed (each entered iteration performs exactly one, as its first
action). An errored iteration appends the "Agent iteration error"
system message and returns without looping. -/
def loopGo (fetchAt : Nat → HttpRequest → FetchResp) (st : LlmSettings) :
    Nat → Nat → AgentState → AgentState × Nat
  | 0, _, s => (s, 0)
  | fuel + 1, callIdx, s =>
    match iter (fetchAt callIdx) st s with
    | (s1, .cont) =>
      let r := loopGo fetchAt st fuel (callIdx + 1) s1
      (r.1, r.2 + 1)
    | (s1, .stop) => (s1, 1)
    | (s1, .err e) =>
      (addMessage ("system") (some (.jstr ("Agent iteration error: " ++ e))) s1, 1)

/-- `agentLoop`: the loop with its fixed budget of 5. The transport is a
function of the call index so that theorems quantify over any sequence
of provider behaviours. -/
def agentLoop (fetchAt : Nat → HttpRequest → FetchResp) (st : LlmSettings) (s : AgentState) :
    AgentState × Nat :=
  loopGo fetchAt st 5 0 s

/-! ## Conversation persistence

`saveCurrentConversation` writes
`JSON.stringify(Array.from(conversations.entries()))` to storage;
`loadConversationHistory` parses it back. On the record fields involved
(strings, integral timestamps, message lists of JSON-representable
fields) the stringify/parse pair is the identity, so storage is modelled
as holding the typed entry list; `localStorage.getItem` returning `null`
is the `none` case. The entries of a `Map` are its insertion-ordered
key/value pairs. -/

structure Conversation where
  id : String
  title : String
  messages : List Message
  createdAt : Nat
  updatedAt : Nat
  preview : String

/-- The id → conversation map, as its insertion-ordered entry list. -/
abbrev ConvEntries := List (String × Conversation)

/-- `saveCurrentConversation`: persists the entry list only when
auto-save is enabled, leaving storage untouched otherwise. -/
def saveCurrentConversation (autoSave : Bool) (storage : Option ConvEntries)
    (convs : ConvEntries) : Option ConvEntries :=
  if autoSave then some convs else storage

/-- The per-conversation normalization applied on load:
`conv.updatedAt = conv.updatedAt || conv.createdAt || Date.now()` (a
zero timestamp is falsy) and `conv.messages = conv.messages || []` (an
array, even empty, is truthy, so this is the identity here). -/
def normalizeConv (now : Nat) (c : Conversation) : Conversation :=
  { c with
    updatedAt := if c.updatedAt ≠ 0 then c.updatedAt
                 else if c.createdAt ≠ 0 then c.createdAt else now,
    messages := c.messages }

/-- `createNewConversation`: a fresh conversation keyed and identified
by the creation time. -/
def newConversation (now : Nat) : String × Conversation :=
  ("conv_" ++ toString now,
   { id := "conv_" ++ toString now, title := "New Conversation", messages := [],
     createdAt := now, updatedAt := now, preview := "..." })

/-- `loadConversationHistory`: rebuilds the map from the stored entries
and normalizes each conversation; when the rebuilt map has no most
recent conversation (it is empty) — or nothing was stored — a fresh
conversation is created and added to the map. -/
def loadConversationHistory (storage : Option ConvEntries) (prior : ConvEntries)
    (now : Nat) : ConvEntries :=
  match storage with
  | some entries =>
    let m := entries.map (fun kv => (kv.1, normalizeConv now kv.2))
    if m.isEmpty then m ++ [newConversation now] else m
  | none => prior ++ [newConversation now]

/-! ## Statement helpers and concrete inputs -/

/-- The shape of a logged message the tool-phase claims talk about:
its role and the `tool_call_id` tag (absent on every message except the
pushed tool-result records). -/
def msgSig (m : Message) : String × Option JVal := (m.role, m.tool_call_id)

/-- Is a value not the `null` literal. -/
def notNull : JVal → Bool
  | .jnull => false
  | _ => true

/-- A requested tool call that raises no exception anywhere in the tool
phase: it is not `null`, its `function` field is present and not nullish
(so the banner read `tc.function.name` succeeds), and if its name
dispatches to one of the four registered handlers its parsed arguments
are not `null` (so the handler destructuring succeeds). -/
def wfToolCall (tc : JVal) : Bool :=
  match tc with
  | .jnull => false
  | _ =>
    (match getF tc ("function") with
     | none => false
     | some .jnull => false
     | some _ => true)
    && (match toolNameOf tc with
        | .jstr s =>
          if s = ("web_search") ∨ s = ("execute_code") ∨ s = ("process_file")
              ∨ s = ("create_visualization")
          then notNull (executeToolArgs tc) else true
        | _ => true)

/-- The outbound-message normalization as the spec words it: every
`tool`-role message is re-labelled `system`, every other role passes
through unchanged, and every message whose serialized content is
empty/falsy is dropped. Stated for comparison with the source-derived
`buildMessagesForApi`. -/
def specOutboundMessages (ms : List Message) : List ApiMsg :=
  ms.filterMap (fun m =>
    match serializeMsgContent m.content with
    | some c =>
      if c ≠ "" then
        some (ApiMsg.mk (if m.role = ("tool") then ("system") else m.role) (some c))
      else none
    | none => none)

/-- A concrete requested tool call in the provider wire shape (arguments
under `function.arguments`). -/
def c2ToolCall : JVal :=
  .jobj [("id", .jstr ("call_1")),
         ("function", .jobj [("name", .jstr ("web_search")), ("arguments", .jstr ("\x7b\x7d"))])]

/-- A concrete chat-completions response whose message carries exactly
one tool call and no textual content. -/
def c2Data : JVal :=
  .jobj [("choices", .jarr [.jobj [("message", .jobj [("tool_calls", .jarr [c2ToolCall])])]])]

/-- Settings for the concrete runs: provider openai with a key present. -/
def c2Settings : LlmSettings := ⟨("openai"), ("k"), ("m"), .jnull, .jnull⟩

/-- A concrete stored conversation whose `updatedAt` is the (falsy)
timestamp zero. -/
def c10Conv : String × Conversation :=
  (("c1"), ⟨("c1"), ("t"), [], 7, 0, ("p")⟩)

/-! ## Theorems -/

/-- C4, counterexample: as stated, the claim is false. With the
unsupported provider "foo" but no API key, `callLLM` does not fail at
all: the demo-mode check precedes the provider switch, so it returns the
demo payload. And with the (empty) provider name outside the supported
set, the error raised is the missing-provider one, which does not name
the offending string. -/
theorem c4_counterexample :
    callLLM (fun _ => .netErr ("")) ⟨("foo"), "", "", .jnull, .jnull⟩ [] = .ok demoPayload ∧
    callLLM (fun _ => .netErr ("")) ⟨"", ("k"), "", .jnull, .jnull⟩ []
      = .error ("No LLM provider configured.") :=
  ⟨rfl, rfl⟩

/-- C4, amended: for every call with a non-empty provider name outside
the supported set and a present API key, `callLLM` fails with the
configuration error naming the offending provider string. -/
theorem c4_unsupported_provider (fetch : HttpRequest → FetchResp) (st : LlmSettings)
    (ms : List Message) (hp : st.provider ≠ "") (hk : st.apiKey ≠ "")
    (h1 : st.provider ≠ ("openai")) (h2 : st.provider ≠ ("google"))
    (h3 : st.provider ≠ ("aipipe")) :
    callLLM fetch st ms = .error ("Unsupported provider: " ++ st.provider) := by
  simp [callLLM, hp, hk, h1, h2, h3]

/-- Witness for C4 at the provider "foo" with a key present. -/
theorem c4_unsupported_provider_witness :
    callLLM (fun _ => .netErr ("")) ⟨("foo"), ("k"), "", .jnull, .jnull⟩ []
      = .error ("Unsupported provider: " ++ ("foo")) :=
  c4_unsupported_provider _ _ _ (by decide) (by decide) (by decide) (by decide) (by decide)

/-- C5: with provider "openai" and an absent API key, `callLLM` returns
the fixed demo payload for every conversation; the result does not
depend on the transport (`fetch` is universally quantified), so no
network I/O is observable. -/
theorem c5_demo_mode (fetch : HttpRequest → FetchResp) (st : LlmSettings)
    (ms : List Message) (hp : st.provider = ("openai")) (hk : st.apiKey = "") :
    callLLM fetch st ms = .ok demoPayload := by
  rcases st with ⟨p, k, mo, mt, te⟩
  simp only at hp hk
  subst hp; subst hk
  rfl

/-- Witness for C5 on a one-message conversation and a failing network. -/
theorem c5_demo_mode_witness :
    callLLM (fun _ => .netErr ("down")) ⟨("openai"), "", ("gpt"), .jnull, .jnull⟩
      [{ role := ("user"), content := some (.jstr ("hi")) }] = .ok demoPayload :=
  c5_demo_mode _ _ _ rfl rfl

/-- C7: argument extraction reads only the top-level
`toolCall.arguments`. For a tool call in the wire shape — arguments
carried under `function.arguments`, no top-level field — the extracted
arguments are the empty object for every value of `function.arguments`,
and that empty object is exactly what `executeTool` hands the dispatched
handler. -/
theorem c7_function_arguments_ignored (idv namev fargs : JVal) (s : AgentState) :
    executeToolArgs
        (.jobj [("id", idv), ("function", .jobj [("name", namev), ("arguments", fargs)])])
      = .jobj [] ∧
    (executeTool
        (.jobj [("id", idv), ("function", .jobj [("name", namev), ("arguments", fargs)])]) s).2
      = dispatchTool
          (toolNameOf (.jobj [("id", idv), ("function", .jobj [("name", namev), ("arguments", fargs)])]))
          (.jobj []) :=
  ⟨rfl, rfl⟩

/-- C8: a tool call whose resolved function name is a string outside the
registry makes `executeTool` return (not throw) the structured
unknown-tool value. -/
theorem c8_unknown_tool (tc : JVal) (s : AgentState) (nm : String)
    (hnull : tc ≠ .jnull) (hname : toolNameOf tc = .jstr nm)
    (h1 : nm ≠ ("web_search")) (h2 : nm ≠ ("execute_code"))
    (h3 : nm ≠ ("process_file")) (h4 : nm ≠ ("create_visualization")) :
    (executeTool tc s).2 = .ok (.jobj [("error", .jstr ("Unknown tool: " ++ nm))]) := by
  cases tc with
  | jnull => exact absurd rfl hnull
  | jbool b => simp [executeTool, dispatchTool, hname, h1, h2, h3, h4]
  | jnum n => simp [executeTool, dispatchTool, hname, h1, h2, h3, h4]
  | jstr s => simp [executeTool, dispatchTool, hname, h1, h2, h3, h4]
  | jarr xs => simp [executeTool, dispatchTool, hname, h1, h2, h3, h4]
  | jobj fs => simp [executeTool, dispatchTool, hname, h1, h2, h3, h4]

/-- Witness for C8 at the unknown tool name "foo". -/
theorem c8_unknown_tool_witness :
    (executeTool (.jobj [("function", .jobj [("name", .jstr ("foo"))])]) {}).2
      = .ok (.jobj [("error", .jstr ("Unknown tool: " ++ ("foo")))]) :=
  c8_unknown_tool _ {} _ (fun h => JVal.noConfusion h) rfl (by decide) (by decide) (by decide) (by decide)

/-- C9: when the top-level `arguments` field is a string that does not
parse as JSON, argument extraction yields the empty object — the
`catch` swallows the parse exception, so none propagates out of
`executeTool`. -/
theorem c9_malformed_args_fallback (tc : JVal) (str : String)
    (ha : getF tc ("arguments") = some (.jstr str)) (hp : jsonParse str = none) :
    executeToolArgs tc = .jobj [] := by
  by_cases h0 : str = ""
  · subst h0; simp [executeToolArgs, ha, truthy]
  · simp [executeToolArgs, ha, truthy, h0, hp]

/-- Witness for C9 at a malformed argument string. -/
theorem c9_malformed_args_fallback_witness :
    executeToolArgs (.jobj [("arguments", .jstr ("\x7bbad"))]) = .jobj [] :=
  c9_malformed_args_fallback _ ("\x7bbad") rfl rfl

/-- The loop performs at most `fuel` provider calls: each entered
iteration performs exactly one `callLLM` invocation (its first action)
and consumes one unit of the budget. -/
theorem loopGo_calls_le (fetchAt : Nat → HttpRequest → FetchResp) (st : LlmSettings) :
    ∀ fuel callIdx s, (loopGo fetchAt st fuel callIdx s).2 ≤ fuel := by
  intro fuel
  induction fuel with
  | zero => intro callIdx s; exact Nat.le_refl 0
  | succ f ih =>
    intro callIdx s
    rcases h : iter (fetchAt callIdx) st s with ⟨s1, out⟩
    cases out with
    | cont =>
      have he : loopGo fetchAt st (f + 1) callIdx s
          = ((loopGo fetchAt st f (callIdx + 1) s1).1,
             (loopGo fetchAt st f (callIdx + 1) s1).2 + 1) := by
        simp only [loopGo, h]
      rw [he]
      exact Nat.succ_le_succ (ih (callIdx + 1) s1)
    | stop =>
      have he : loopGo fetchAt st (f + 1) callIdx s = (s1, 1) := by
        simp only [loopGo, h]
      rw [he]
      exact Nat.succ_le_succ (Nat.zero_le f)
    | err e =>
      have he : loopGo fetchAt st (f + 1) callIdx s
          = (addMessage ("system") (some (.jstr ("Agent iteration error: " ++ e))) s1, 1) := by
        simp only [loopGo, h]
      rw [he]
      exact Nat.succ_le_succ (Nat.zero_le f)

/-- C1: for every transport behaviour (including one whose every parsed
response carries a non-empty tool-call list), every settings value and
every starting conversation, one `agentLoop` run — the whole of a
`sendMessage` turn — performs at most 5 `callLLM` invocations. The loop
is structurally recursive on the budget of 5 mirrored from `maxTurns`,
so it terminates on every input. -/
theorem c1_agentLoop_call_bound (fetchAt : Nat → HttpRequest → FetchResp)
    (st : LlmSettings) (s : AgentState) :
    (agentLoop fetchAt st s).2 ≤ 5 :=
  loopGo_calls_le fetchAt st 5 0 s

/-- C3: an exception raised anywhere inside an iteration (provider
call, response parsing, or tool dispatch — every `.err` outcome of
`iter`) is caught by the loop: the run returns normally (no exception
escapes `agentLoop`), appends exactly the system-role message describing
the failure, and performs no further provider call (the call count of
the remaining run is the single call of the failed iteration — no
retry). -/
theorem c3_iteration_error_caught (fetchAt : Nat → HttpRequest → FetchResp)
    (st : LlmSettings) (fuel callIdx : Nat) (s s1 : AgentState) (e : String)
    (h : iter (fetchAt callIdx) st s = (s1, .err e)) :
    loopGo fetchAt st (fuel + 1) callIdx s
      = (addMessage ("system") (some (.jstr ("Agent iteration error: " ++ e))) s1, 1) := by
  simp only [loopGo, h]

/-- Witness for C3: a transport failure on the first iteration of a
full-budget run. -/
theorem c3_iteration_error_caught_witness :
    loopGo (fun _ _ => FetchResp.netErr ("boom")) ⟨("openai"), ("k"), ("m"), .jnull, .jnull⟩
        (4 + 1) 0 {}
      = (addMessage ("system") (some (.jstr ("Agent iteration error: " ++ "boom"))) {}, 1) :=
  c3_iteration_error_caught _ _ 4 0 {} {} ("boom") rfl

/-- C6: the outbound list built before every provider call equals, for
every message list, the list described by the spec — `tool` roles
re-labelled `system`, all other roles passed through, and every message
whose serialized content is empty/falsy dropped. -/
theorem c6_outbound_normalization (ms : List Message) :
    buildMessagesForApi ms = specOutboundMessages ms := by
  induction ms with
  | nil => rfl
  | cons m rest ih =>
    have hb : buildMessagesForApi (m :: rest)
        = (if truthyStrO (serializeMsgContent m.content) = true
           then [ApiMsg.mk (if m.role = ("tool") then ("system") else m.role)
                  (serializeMsgContent m.content)]
           else []) ++ buildMessagesForApi rest := by
      simp only [buildMessagesForApi, List.map_cons, List.filter_cons]
      by_cases hr : m.role = ("tool") <;>
        by_cases ht : truthyStrO (serializeMsgContent m.content) = true <;>
          simp [hr, ht]
    rw [hb, ih]
    cases hc : serializeMsgContent m.content with
    | none => simp [specOutboundMessages, List.filterMap_cons, hc, truthyStrO]
    | some c =>
      by_cases h0 : c = ""
      · subst h0
        simp [specOutboundMessages, List.filterMap_cons, hc, truthyStrO]
      · simp [specOutboundMessages, List.filterMap_cons, hc, truthyStrO, h0]

/-- `addMessage` with string content appends exactly one record (both
branches of the preview/title refresh leave `messages` alike). -/
theorem addMessage_str_messages (role str : String) (s : AgentState) :
    (addMessage role (some (.jstr str)) s).messages
      = s.messages ++ [{ id := some ("msg_" ++ toString s.clock), role := role,
                         content := some (.jstr str), timestamp := some s.clock }] := by
  simp only [addMessage]
  split <;> rfl

/-- `addMessage` with any non-`null` content appends exactly one record. -/
theorem addMessage_some_messages (role : String) (c : JVal) (s : AgentState)
    (h : c ≠ .jnull) :
    (addMessage role (some c) s).messages
      = s.messages ++ [{ id := some ("msg_" ++ toString s.clock), role := role,
                         content := some c, timestamp := some s.clock }] := by
  cases c with
  | jnull => exact absurd rfl h
  | jbool b => rfl
  | jnum n => rfl
  | jstr str => simp only [addMessage]; split <;> rfl
  | jarr xs => rfl
  | jobj fs => rfl

/-- A non-`null` tool call makes `executeTool` append exactly its
"Executing tool" system record. -/
theorem executeTool_messages (tc : JVal) (s : AgentState) (h : tc ≠ .jnull) :
    (executeTool tc s).1.messages
      = s.messages ++ [{ id := some ("msg_" ++ toString s.clock), role := ("system"),
                         content := some (.jstr ("Executing tool: " ++ jsTemplate (toolNameOf tc))),
                         timestamp := some s.clock }] := by
  cases tc with
  | jnull => exact absurd rfl h
  | jbool b => simp only [executeTool]; rw [addMessage_str_messages]
  | jnum n => simp only [executeTool]; rw [addMessage_str_messages]
  | jstr s2 => simp only [executeTool]; rw [addMessage_str_messages]
  | jarr xs => simp only [executeTool]; rw [addMessage_str_messages]
  | jobj fs => simp only [executeTool]; rw [addMessage_str_messages]

/-- A non-`null` tool call is dispatched on its resolved name and
leniently parsed arguments. -/
theorem executeTool_result (tc : JVal) (s : AgentState) (h : tc ≠ .jnull) :
    (executeTool tc s).2 = dispatchTool (toolNameOf tc) (executeToolArgs tc) := by
  cases tc with
  | jnull => exact absurd rfl h
  | jbool b => rfl
  | jnum n => rfl
  | jstr s2 => rfl
  | jarr xs => rfl
  | jobj fs => rfl

/-- The simulated `web_search` handler resolves on non-`null` arguments. -/
theorem executeWebSearch_ok (args : JVal) (h : notNull args = true) :
    ∃ v, executeWebSearch args = .ok v := by
  cases args <;> first | exact ⟨_, rfl⟩ | simp [notNull] at h

/-- The simulated `execute_code` handler resolves on non-`null` arguments. -/
theorem executeCode_ok (args : JVal) (h : notNull args = true) :
    ∃ v, executeCode args = .ok v := by
  cases args <;> first | exact ⟨_, rfl⟩ | simp [notNull] at h

/-- The simulated `process_file` handler resolves on non-`null` arguments. -/
theorem processFile_ok (args : JVal) (h : notNull args = true) :
    ∃ v, processFile args = .ok v := by
  cases args <;> first | exact ⟨_, rfl⟩ | simp [notNull] at h

/-- The simulated `create_visualization` handler resolves on non-`null`
arguments. -/
theorem createVisualization_ok (args : JVal) (h : notNull args = true) :
    ∃ v, createVisualization args = .ok v := by
  cases args <;> first | exact ⟨_, rfl⟩ | simp [notNull] at h

/-- Dispatch on a string name with non-`null` arguments never throws. -/
theorem dispatchTool_ok_of_notNull (nm : String) (args : JVal) (h : notNull args = true) :
    ∃ v, dispatchTool (.jstr nm) args = .ok v := by
  simp only [dispatchTool]
  by_cases h1 : nm = ("web_search")
  · simp [h1]; exact executeWebSearch_ok args h
  · by_cases h2 : nm = ("execute_code")
    · simp [h1, h2]; exact executeCode_ok args h
    · by_cases h3 : nm = ("process_file")
      · simp [h1, h2, h3]; exact processFile_ok args h
      · by_cases h4 : nm = ("create_visualization")
        · simp [h1, h2, h3, h4]; exact createVisualization_ok args h
        · simp [h1, h2, h3, h4]

/-- Unpacking `wfToolCall`: the call is non-`null`, its `function` field
is present and non-nullish, and registry-dispatched calls have
non-`null` parsed arguments. -/
theorem wfToolCall_parts (tc : JVal) (h : wfToolCall tc = true) :
    tc ≠ .jnull ∧ (∃ f, getF tc ("function") = some f ∧ f ≠ .jnull) ∧
      (∀ s2 : String, toolNameOf tc = .jstr s2 →
        (s2 = ("web_search") ∨ s2 = ("execute_code") ∨ s2 = ("process_file")
          ∨ s2 = ("create_visualization")) → notNull (executeToolArgs tc) = true) := by
  cases tc with
  | jnull => simp [wfToolCall] at h
  | jbool b => simp [wfToolCall, getF] at h
  | jnum n => simp [wfToolCall, getF] at h
  | jstr s => simp [wfToolCall, getF] at h
  | jarr xs => simp [wfToolCall, getF] at h
  | jobj fs =>
    simp only [wfToolCall, Bool.and_eq_true] at h
    refine ⟨?_, ?_, ?_⟩
    · intro hh; injection hh
    · rcases hf : getF (.jobj fs) ("function") with _ | f
      · exact absurd h.1 (by simp [hf])
      · cases f with
        | jnull => exact absurd h.1 (by simp [hf])
        | jbool b => exact ⟨.jbool b, rfl, fun hh => by injection hh⟩
        | jnum n => exact ⟨.jnum n, rfl, fun hh => by injection hh⟩
        | jstr s => exact ⟨.jstr s, rfl, fun hh => by injection hh⟩
        | jarr xs => exact ⟨.jarr xs, rfl, fun hh => by injection hh⟩
        | jobj fs2 => exact ⟨.jobj fs2, rfl, fun hh => by injection hh⟩
    · intro s2 hn hmem
      have h2 := h.2
      rw [hn] at h2
      simp only at h2
      rw [if_pos hmem] at h2
      exact h2

/-- Property read through `getFE` on a non-`null` receiver. -/
theorem getFE_some (tc : JVal) (k : String) (h : tc ≠ .jnull) :
    getFE (some tc) k = .ok (getF tc k) := by
  cases tc <;> first | exact absurd rfl h | rfl

/-- A well-formed tool call settles successfully. -/
theorem executeTool_ok_of_wf (tc : JVal) (s : AgentState) (h : wfToolCall tc = true) :
    ∃ v, (executeTool tc s).2 = .ok v := by
  rcases wfToolCall_parts tc h with ⟨hnn, _, hreg⟩
  rw [executeTool_result tc s hnn]
  rcases hn : toolNameOf tc with _ | b | n | nm | xs | fs
  · exact ⟨_, rfl⟩
  · exact ⟨_, rfl⟩
  · exact ⟨_, rfl⟩
  · by_cases hmem : nm = ("web_search") ∨ nm = ("execute_code") ∨ nm = ("process_file")
        ∨ nm = ("create_visualization")
    · exact dispatchTool_ok_of_notNull nm _ (hreg nm hn hmem)
    · push_neg at hmem
      rcases hmem with ⟨h1, h2, h3, h4⟩
      have hd : dispatchTool (.jstr nm) (executeToolArgs tc)
          = .ok (.jobj [("error", .jstr ("Unknown tool: " ++ nm))]) := by
        simp [dispatchTool, h1, h2, h3, h4]
      exact ⟨_, hd⟩
  · exact ⟨_, rfl⟩
  · exact ⟨_, rfl⟩

/-- The banner name reads succeed on well-formed calls and yield one
name per call. -/
theorem toolCallNames_ok (tcs : List JVal) (h : ∀ tc ∈ tcs, wfToolCall tc = true) :
    ∃ names, toolCallNames tcs = .ok names ∧ names.length = tcs.length := by
  induction tcs with
  | nil => exact ⟨[], rfl, rfl⟩
  | cons tc rest ih =>
    rcases wfToolCall_parts tc (h tc (List.mem_cons_self tc rest)) with ⟨hnn, ⟨f, hf, hfnn⟩, _⟩
    rcases ih (fun x hx => h x (List.mem_cons_of_mem tc hx)) with ⟨names, hn, hl⟩
    refine ⟨getF f ("name") :: names, ?_, by simp [hl]⟩
    simp only [toolCallNames]
    rw [getFE_some tc _ hnn, hf]
    simp [Bind.bind, Except.bind, Pure.pure, Except.pure, getFE_some f _ hfnn, hn]

/-- One step of the synchronous tool fan-out. -/
theorem runToolExecs_cons (tc : JVal) (rest : List JVal) (s : AgentState) :
    runToolExecs (tc :: rest) s
      = ((runToolExecs rest (executeTool tc s).1).1,
         (executeTool tc s).2 :: (runToolExecs rest (executeTool tc s).1).2) := rfl

/-- The fan-out over non-`null` calls appends exactly one system record
per call, in request order. -/
theorem runToolExecs_messages (tcs : List JVal) (s : AgentState)
    (h : ∀ tc ∈ tcs, tc ≠ .jnull) :
    (runToolExecs tcs s).1.messages.map msgSig
      = s.messages.map msgSig ++ tcs.map (fun _ => (("system"), (none : Option JVal))) := by
  induction tcs generalizing s with
  | nil => simp [runToolExecs]
  | cons tc rest ih =>
    rw [runToolExecs_cons]
    show (runToolExecs rest (executeTool tc s).1).1.messages.map msgSig = _
    rw [ih _ (fun x hx => h x (List.mem_cons_of_mem tc hx))]
    rw [executeTool_messages tc s (h tc (List.mem_cons_self tc rest))]
    simp [msgSig, List.map_append, List.append_assoc]

/-- Over well-formed calls the joint wait resolves, with one result per
call. -/
theorem runToolExecs_results (tcs : List JVal) (s : AgentState)
    (h : ∀ tc ∈ tcs, wfToolCall tc = true) :
    ∃ vals, collectResults (runToolExecs tcs s).2 = .ok vals ∧ vals.length = tcs.length := by
  induction tcs generalizing s with
  | nil => exact ⟨[], rfl, rfl⟩
  | cons tc rest ih =>
    rcases executeTool_ok_of_wf tc s (h tc (List.mem_cons_self tc rest)) with ⟨v, hv⟩
    rcases ih (executeTool tc s).1 (fun x hx => h x (List.mem_cons_of_mem tc hx))
      with ⟨vals, hc, hlv⟩
    refine ⟨v :: vals, ?_, by simp [hlv]⟩
    rw [runToolExecs_cons]
    show collectResults ((executeTool tc s).2 :: (runToolExecs rest (executeTool tc s).1).2)
      = .ok (v :: vals)
    rw [hv]
    simp [collectResults, hc]

/-- Message logs only grow along the phases (composition step). -/
theorem exists_append_trans {a b c : List Message}
    (h1 : ∃ l, b = a ++ l) (h2 : ∃ l, c = b ++ l) : ∃ l, c = a ++ l := by
  rcases h1 with ⟨l1, rfl⟩
  rcases h2 with ⟨l2, rfl⟩
  exact ⟨l1 ++ l2, List.append_assoc _ _ _⟩

/-- `executeTool` only appends to the log. -/
theorem executeTool_messages_append (tc : JVal) (s : AgentState) :
    ∃ l, (executeTool tc s).1.messages = s.messages ++ l := by
  cases tc with
  | jnull => exact ⟨[], by simp [executeTool]⟩
  | jbool b => exact ⟨_, executeTool_messages _ s (fun hh => by injection hh)⟩
  | jnum n => exact ⟨_, executeTool_messages _ s (fun hh => by injection hh)⟩
  | jstr s2 => exact ⟨_, executeTool_messages _ s (fun hh => by injection hh)⟩
  | jarr xs => exact ⟨_, executeTool_messages _ s (fun hh => by injection hh)⟩
  | jobj fs => exact ⟨_, executeTool_messages _ s (fun hh => by injection hh)⟩

/-- The fan-out only appends to the log. -/
theorem runToolExecs_messages_append (tcs : List JVal) (s : AgentState) :
    ∃ l, (runToolExecs tcs s).1.messages = s.messages ++ l := by
  induction tcs generalizing s with
  | nil => exact ⟨[], by simp [runToolExecs]⟩
  | cons tc rest ih =>
    rw [runToolExecs_cons]
    exact exists_append_trans (executeTool_messages_append tc s) (ih (executeTool tc s).1)

/-- One step of the result-push loop. -/
theorem pushToolResults_cons (tc : JVal) (nm : Option JVal) (v : JVal)
    (rest : List ((JVal × Option JVal) × JVal)) (s : AgentState) :
    pushToolResults (((tc, nm), v) :: rest) s
      = pushToolResults rest
          (addMessage ("tool") (some (.jstr (stringify v)))
            { s with messages := s.messages ++
                [{ role := ("tool"), tool_call_id := getF tc ("id"), name := nm,
                   content := some (.jstr (stringify v)) }] }) := rfl

/-- The result-push loop appends, per result in order, the tagged
`tool` record followed by its untagged display copy. -/
theorem pushToolResults_messages (l : List ((JVal × Option JVal) × JVal)) (s : AgentState) :
    (pushToolResults l s).messages.map msgSig
      = s.messages.map msgSig
        ++ (l.map (fun x =>
              [(("tool"), getF x.1.1 ("id")), (("tool"), (none : Option JVal))])).flatten := by
  induction l generalizing s with
  | nil => simp [pushToolResults]
  | cons x rest ih =>
    rcases x with ⟨⟨tc, nm⟩, v⟩
    rw [pushToolResults_cons, ih, addMessage_str_messages]
    simp [msgSig, List.map_append, List.append_assoc]

/-- The result-push loop only appends to the log. -/
theorem pushToolResults_messages_append (l : List ((JVal × Option JVal) × JVal))
    (s : AgentState) :
    ∃ d, (pushToolResults l s).messages = s.messages ++ d := by
  induction l generalizing s with
  | nil => exact ⟨[], by simp [pushToolResults]⟩
  | cons x rest ih =>
    rcases x with ⟨⟨tc, nm⟩, v⟩
    rw [pushToolResults_cons]
    exact exists_append_trans
      (exists_append_trans ⟨_, rfl⟩
        ⟨_, addMessage_some_messages _ _ _ (fun hh => by injection hh)⟩)
      (ih _)

/-- Projecting the original calls out of the zipped push list. -/
theorem zip_zip_map_fst {α β γ δ : Type _} (a : List α) (b : List β) (c : List γ) (f : α → δ)
    (h1 : a.length ≤ b.length) (h2 : a.length ≤ c.length) :
    ((a.zip b).zip c).map (fun x => f x.1.1) = a.map f := by
  have hab : (a.zip b).length = a.length := by
    rw [List.length_zip]; exact Nat.min_eq_left h1
  have e1 : ((a.zip b).zip c).map Prod.fst = a.zip b :=
    List.map_fst_zip _ _ (by rw [hab]; exact h2)
  have e2 : (a.zip b).map Prod.fst = a := List.map_fst_zip _ _ h1
  calc ((a.zip b).zip c).map (fun x => f x.1.1)
      = ((((a.zip b).zip c).map Prod.fst).map Prod.fst).map f := by
        simp only [List.map_map]; rfl
    _ = a.map f := by rw [e1, e2]

/-- The banner and placeholder appends, at the message level. -/
theorem toolPhasePrefix_messages (tcsVal : JVal) (names : List (Option JVal)) (s : AgentState) :
    (toolPhasePrefix tcsVal names s).messages
      = s.messages
        ++ [{ id := some ("msg_" ++ toString s.clock), role := ("assistant"),
              content := some (.jstr ("Using tools: "
                ++ String.intercalate (", ") (names.map jsJoinElemO))),
              timestamp := some s.clock },
            { role := ("assistant"), content := some .jnull, tool_calls := some tcsVal }] := by
  simp only [toolPhasePrefix]
  rw [addMessage_str_messages]
  simp [List.append_assoc]

/-- Reduction of the tool phase when names and results all resolve. -/
theorem runToolPhase_ok_eq (tcs : List JVal) (s : AgentState) (names : List (Option JVal))
    (vals : List JVal) (hnames : toolCallNames tcs = .ok names)
    (hvals : collectResults (runToolExecs tcs (toolPhasePrefix (.jarr tcs) names s)).2
      = .ok vals) :
    runToolPhase (.jarr tcs) s
      = (pushToolResults ((tcs.zip names).zip vals)
          (runToolExecs tcs (toolPhasePrefix (.jarr tcs) names s)).1, none) := by
  simp only [runToolPhase, hnames, hvals]

/-- C2, counterexample: as stated, the claim is false. A parsed response
with exactly N = 1 tool call makes the log gain, before the next
provider call (the iteration continues the loop), five messages with
roles assistant/assistant/system/tool/tool — two tool-role messages
rather than the claimed one tool message after one placeholder. -/
theorem c2_counterexample :
    parseAPIResponse c2Data ("openai") = .ok (.jobj [("tool_calls", .jarr [c2ToolCall])]) ∧
    (iter (fun _ => .ok c2Data) c2Settings {}).2 = .cont ∧
    (iter (fun _ => .ok c2Data) c2Settings {}).1.messages.map (fun m => m.role)
      = [("assistant"), ("assistant"), ("system"), ("tool"), ("tool")] ∧
    ((iter (fun _ => .ok c2Data) c2Settings {}).1.messages.filter
        (fun m => m.role = ("tool"))).length = 2 :=
  ⟨rfl, rfl, rfl, rfl⟩

/-- C2, amended: for every exception-free iteration whose parsed
response carries N ≥ 1 tool calls, the conversation gains — after any
assistant content message of the same response and before any further
provider call — exactly: one assistant banner message listing the tool
names, one placeholder assistant message (content `null`, carrying the
raw `tool_calls`), N system "Executing tool" messages, and 2N tool-role
messages: per call in original request order, one message tagged with
that call's id followed by one untagged display copy. -/
theorem c2_amended_tool_phase (tcs : List JVal) (s : AgentState)
    (hne : tcs ≠ []) (hwf : ∀ tc ∈ tcs, wfToolCall tc = true) :
    (runToolPhase (.jarr tcs) s).2 = none ∧
    ((runToolPhase (.jarr tcs) s).1.messages.drop s.messages.length).map msgSig
      = [(("assistant"), (none : Option JVal)), (("assistant"), none)]
        ++ tcs.map (fun _ => (("system"), none))
        ++ (tcs.map (fun tc =>
              [(("tool"), getF tc ("id")), (("tool"), (none : Option JVal))])).flatten ∧
    ((runToolPhase (.jarr tcs) s).1.messages.get? (s.messages.length + 1)).map
        (fun m => (m.content, m.tool_calls))
      = some (some .jnull, some (.jarr tcs)) := by
  rcases toolCallNames_ok tcs hwf with ⟨names, hnames, hlnames⟩
  rcases runToolExecs_results tcs (toolPhasePrefix (.jarr tcs) names s) hwf
    with ⟨vals, hvals, hlvals⟩
  have hred := runToolPhase_ok_eq tcs s names vals hnames hvals
  rw [hred]
  have hnn : ∀ tc ∈ tcs, tc ≠ .jnull := fun tc htc => (wfToolCall_parts tc (hwf tc htc)).1
  have hsig : (pushToolResults ((tcs.zip names).zip vals)
        (runToolExecs tcs (toolPhasePrefix (.jarr tcs) names s)).1).messages.map msgSig
      = s.messages.map msgSig
        ++ ([(("assistant"), (none : Option JVal)), (("assistant"), none)]
            ++ tcs.map (fun _ => (("system"), none))
            ++ (tcs.map (fun tc =>
                  [(("tool"), getF tc ("id")), (("tool"), (none : Option JVal))])).flatten) := by
    rw [pushToolResults_messages]
    rw [runToolExecs_messages tcs _ hnn]
    have hmape : ((tcs.zip names).zip vals).map
          (fun x => [(("tool"), getF x.1.1 ("id")), (("tool"), (none : Option JVal))])
        = tcs.map (fun tc => [(("tool"), getF tc ("id")), (("tool"), (none : Option JVal))]) :=
      zip_zip_map_fst tcs names vals
        (fun tc => [(("tool"), getF tc ("id")), (("tool"), (none : Option JVal))])
        (le_of_eq hlnames.symm) (le_of_eq hlvals.symm)
    rw [hmape]
    rw [toolPhasePrefix_messages]
    simp [msgSig, List.map_append, List.append_assoc]
  refine ⟨rfl, ?_, ?_⟩
  · rw [List.map_drop, hsig]
    rw [show s.messages.length = (s.messages.map msgSig).length from (List.length_map _ _).symm]
    exact List.drop_left _ _
  · rcases pushToolResults_messages_append ((tcs.zip names).zip vals)
        (runToolExecs tcs (toolPhasePrefix (.jarr tcs) names s)).1 with ⟨d1, hd1⟩
    rcases runToolExecs_messages_append tcs (toolPhasePrefix (.jarr tcs) names s) with ⟨d2, hd2⟩
    rw [hd1, hd2, toolPhasePrefix_messages]
    simp only [List.append_assoc]
    rw [List.get?_append_right (Nat.le_succ _)]
    simp

/-- Witness for C2 (amended) at the concrete one-call response. -/
theorem c2_amended_tool_phase_witness :
    (runToolPhase (.jarr [c2ToolCall]) {}).2 = none ∧
    ((runToolPhase (.jarr [c2ToolCall]) {}).1.messages.drop 0).map msgSig
      = [(("assistant"), (none : Option JVal)), (("assistant"), none)]
        ++ [c2ToolCall].map (fun _ => (("system"), none))
        ++ ([c2ToolCall].map (fun tc =>
              [(("tool"), getF tc ("id")), (("tool"), (none : Option JVal))])).flatten ∧
    ((runToolPhase (.jarr [c2ToolCall]) {}).1.messages.get? 1).map
        (fun m => (m.content, m.tool_calls))
      = some (some .jnull, some (.jarr [c2ToolCall])) :=
  c2_amended_tool_phase [c2ToolCall] {} (by simp)
    (by intro tc htc; rw [List.mem_singleton] at htc; subst htc; decide)

/-- C10, counterexample: as stated, the claim is false. Reloading a
saved empty conversation set creates a fresh conversation (the map gains
an entry), and a conversation saved with the falsy timestamp
`updatedAt = 0` is reloaded with `updatedAt` replaced by its
`createdAt` (7 here) — not the same timestamps. -/
theorem c10_counterexample :
    loadConversationHistory (saveCurrentConversation true none []) [] 0 ≠ ([] : ConvEntries) ∧
    loadConversationHistory (saveCurrentConversation true none [c10Conv]) [] 9
      ≠ [c10Conv] := by
  refine ⟨fun h => ?_, fun h => ?_⟩
  · exact absurd (congrArg List.length h) (by decide)
  · exact absurd (congrArg (fun l => l.map (fun kv => kv.2.updatedAt)) h) (by decide)

/-- C10, amended: for every non-empty conversation set in which every
conversation has a non-zero (truthy) `updatedAt`, saving with auto-save
enabled and reloading reconstructs the identical id → conversation map —
same ids, same message ordering, same timestamps. -/
theorem c10_roundtrip (convs : ConvEntries) (storage : Option ConvEntries)
    (prior : ConvEntries) (now : Nat) (hne : convs ≠ [])
    (hupd : ∀ kv ∈ convs, kv.2.updatedAt ≠ 0) :
    loadConversationHistory (saveCurrentConversation true storage convs) prior now = convs := by
  have hmap : convs.map (fun kv => (kv.1, normalizeConv now kv.2)) = convs := by
    have hcong : ∀ kv ∈ convs, (kv.1, normalizeConv now kv.2) = id kv := by
      intro kv hkv
      rcases kv with ⟨k, c⟩
      have h0 : c.updatedAt ≠ 0 := hupd (k, c) hkv
      rcases c with ⟨ci, ct, cm, cca, cua, cp⟩
      simp only [normalizeConv, id]
      simp only at h0
      simp [h0]
    rw [List.map_eq_map_iff.mpr hcong, List.map_id]
  have hie : (convs.map (fun kv => (kv.1, normalizeConv now kv.2))).isEmpty = false := by
    rw [hmap]
    cases convs with
    | nil => exact absurd rfl hne
    | cons a l => rfl
  show loadConversationHistory (some convs) prior now = convs
  simp only [loadConversationHistory, hie, Bool.false_eq_true, if_false]
  exact hmap

/-- Witness for C10 (amended) on a one-conversation set with a message
and truthy timestamps. -/
theorem c10_roundtrip_witness :
    loadConversationHistory
        (saveCurrentConversation true none
          [(("c2"), ⟨("c2"), ("t2"), [{ role := ("user"), content := some (.jstr ("hi")) }],
            5, 6, ("p2")⟩)]) [] 11
      = [(("c2"), ⟨("c2"), ("t2"), [{ role := ("user"), content := some (.jstr ("hi")) }],
          5, 6, ("p2")⟩)] :=
  c10_roundtrip _ _ _ _ (by simp)
    (by intro kv hkv; rw [List.mem_singleton] at hkv; subst hkv; decide)
